import Mathlib

/-!
Shallow embedding of the themeflick recommendation engine
(web/src/lib/recommendationEngine.ts): feature records, the pairwise
scorer, the calibration function, the reason builder, and the
MMR-based diversity selector, together with proofs of the spec claims.
JavaScript numbers are modelled as real numbers; nullable values as
`Option`; arrays as lists.  `Math.round` (round half toward positive
infinity) coincides with Mathlib's `round` on ℝ.
-/

namespace Themeflick

open Classical

/-- Feature record for one movie (source type `ScoreFeatures`). -/
structure ScoreFeatures where
  genreIds : List ℤ
  directorId : Option ℤ
  castIds : List ℤ
  voteAverage : ℝ
  voteCount : ℝ
  releaseYear : Option ℝ
  runtimeMinutes : Option ℝ
  keywordIds : List ℤ

/-- Candidate handed to the selector (source type `RankingCandidate`). -/
structure RankingCandidate where
  id : ℤ
  title : String
  poster_path : Option String
  release_date : Option String
  vote_average : ℝ
  director_id : Option ℤ
  features : ScoreFeatures

/-- Public scoring result (source type `ScoringResult`). -/
structure ScoringResult where
  score : ℝ
  reason : String

/-- Final output entry (source type `RankedMovie`). -/
structure RankedMovie where
  id : ℤ
  title : String
  poster_path : Option String
  release_date : Option String
  vote_average : ℝ
  similarity_score : ℝ
  match_reason : String
  director_id : Option ℤ

/-- Internal scoring result (source type `DetailedScoringResult`). -/
structure DetailedScoringResult where
  score : ℝ
  rawScore : ℝ
  reason : String
  sameDirector : Bool

/-- Per-pair signal record (source type `ScoringSignals`). -/
structure ScoringSignals where
  genreScore : ℝ
  keywordScore : ℝ
  castScore : ℝ
  yearScore : ℝ
  runtimeScore : ℝ
  ratingScore : ℝ
  confidenceScore : ℝ
  sameDirector : Bool
  yearDiff : Option ℝ
  runtimeDiff : Option ℝ

def MAX_RESULTS : ℕ := 18

def MAX_PER_DIRECTOR : ℕ := 2

noncomputable def MIN_SCORE_SAME_DIRECTOR : ℝ := 40

noncomputable def MIN_SCORE_GENERAL : ℝ := 46

noncomputable def CAST_POSITION_WEIGHTS : List ℝ := [1.0, 0.8, 0.6, 0.45, 0.3]

/-- Signal weight table (source constant `SIGNAL_WEIGHTS`). -/
structure SignalWeights where
  genre : ℝ
  keyword : ℝ
  cast : ℝ
  director : ℝ
  year : ℝ
  runtime : ℝ
  rating : ℝ
  confidence : ℝ

noncomputable def SIGNAL_WEIGHTS : SignalWeights :=
  { genre := 0.3, keyword := 0.2, cast := 0.14, director := 0.12,
    year := 0.09, runtime := 0.07, rating := 0.05, confidence := 0.03 }

/-- Source function `clamp`: `Math.max(min, Math.min(max, value))`. -/
noncomputable def clamp (value minV maxV : ℝ) : ℝ :=
  max minV (min maxV value)

/-- Source function `roundToSingleDecimal`: `Math.round(value * 10) / 10`.
JavaScript `Math.round` rounds half toward positive infinity, exactly
Mathlib's `round` on ℝ. -/
noncomputable def roundToSingleDecimal (value : ℝ) : ℝ :=
  (round (value * 10) : ℤ) / 10

/-- Source function `jaccardScore`: Jaccard similarity of the two id
lists viewed as sets, 0 if either list is empty. -/
noncomputable def jaccardScore (left right : List ℤ) : ℝ :=
  if left = [] ∨ right = [] then 0
  else
    let inter := (left.toFinset ∩ right.toFinset).card
    let union := (left.toFinset ∪ right.toFinset).card
    if union = 0 then 0 else (inter : ℝ) / (union : ℝ)

/-- Source function `weightedCastOverlap`: position-weighted overlap of
the reference's top-5 cast slots with the candidate cast. -/
noncomputable def weightedCastOverlap (baseCast candidateCast : List ℤ) : ℝ :=
  if baseCast = [] ∨ candidateCast = [] then 0
  else
    let limitedBase := baseCast.take CAST_POSITION_WEIGHTS.length
    let pairs := limitedBase.zip CAST_POSITION_WEIGHTS
    let maxScore := (pairs.map Prod.snd).sum
    let score := (pairs.filterMap
      (fun p => if p.1 ∈ candidateCast then some p.2 else none)).sum
    if maxScore = 0 then 0 else score / maxScore

/-- Director match test from `scoreSignals` and `pairSimilarity`:
both ids non-null and equal. -/
def sameDirectorB : Option ℤ → Option ℤ → Bool
  | some b, some c => b == c
  | _, _ => false

/-- Source function `scoreSignals`. -/
noncomputable def scoreSignals (base candidate : ScoreFeatures) : ScoringSignals :=
  let yearDiff : Option ℝ :=
    match base.releaseYear, candidate.releaseYear with
    | some b, some c => some |b - c|
    | _, _ => none
  let runtimeDiff : Option ℝ :=
    match base.runtimeMinutes, candidate.runtimeMinutes with
    | some b, some c => some |b - c|
    | _, _ => none
  { genreScore := jaccardScore base.genreIds candidate.genreIds
    keywordScore := jaccardScore base.keywordIds candidate.keywordIds
    castScore := weightedCastOverlap base.castIds candidate.castIds
    yearScore :=
      match yearDiff with
      | none => 0.45
      | some d => clamp (1 - d / 18) 0 1
    runtimeScore :=
      match runtimeDiff with
      | none => 0.55
      | some d => clamp (1 - d / 70) 0 1
    ratingScore := clamp (1 - |base.voteAverage - candidate.voteAverage| / 3.5) 0 1
    confidenceScore := clamp (Real.logb 10 (candidate.voteCount + 1) / 4) 0 1
    sameDirector := sameDirectorB base.directorId candidate.directorId
    yearDiff := yearDiff
    runtimeDiff := runtimeDiff }

/-- Entry of the reason candidate list in `buildReason`. -/
structure ReasonEntry where
  label : String
  contribution : ℝ

/-- Stable descending insertion used to model the stable JavaScript
`Array.prototype.sort` with comparator `right.contribution - left.contribution`. -/
noncomputable def insertReason (x : ReasonEntry) : List ReasonEntry → List ReasonEntry
  | [] => [x]
  | y :: ys => if x.contribution < y.contribution then y :: insertReason x ys else x :: y :: ys

/-- Stable sort of reason entries by contribution, descending. -/
noncomputable def sortReasons (l : List ReasonEntry) : List ReasonEntry :=
  l.foldr insertReason []

/-- Reason candidates pushed by `buildReason`, in source push order. -/
noncomputable def candidateReasons (signals : ScoringSignals) : List ReasonEntry :=
  (if signals.sameDirector then
      [{ label := "Same director",
         contribution := SIGNAL_WEIGHTS.director +
           (if signals.genreScore ≥ 0.2 then 0.04 else 0) }]
    else []) ++
  (if signals.keywordScore ≥ 0.18 then
      [{ label := "Shared themes",
         contribution := signals.keywordScore * SIGNAL_WEIGHTS.keyword +
           (if signals.keywordScore ≥ 0.35 then 0.03 else 0) }]
    else []) ++
  (if signals.genreScore ≥ 0.18 then
      [{ label := "Strong genre overlap",
         contribution := signals.genreScore * SIGNAL_WEIGHTS.genre }]
    else []) ++
  (if signals.castScore ≥ 0.2 then
      [{ label := "Shared cast",
         contribution := signals.castScore * SIGNAL_WEIGHTS.cast }]
    else []) ++
  (if signals.yearDiff ≠ none ∧ signals.yearScore ≥ 0.55 then
      [{ label := "Same era",
         contribution := signals.yearScore * SIGNAL_WEIGHTS.year }]
    else []) ++
  (if signals.runtimeDiff ≠ none ∧ signals.runtimeScore ≥ 0.65 then
      [{ label := "Similar pacing",
         contribution := signals.runtimeScore * SIGNAL_WEIGHTS.runtime }]
    else [])

/-- Source function `buildReason`. -/
noncomputable def buildReason (signals : ScoringSignals) : String :=
  let reasons := sortReasons (candidateReasons signals)
  if signals.sameDirector then
    match reasons.find? (fun r => r.label != "Same director") with
    | some secondary => "Same director + " ++ secondary.label
    | none => "Same director"
  else if reasons = [] then "Strong overall profile match"
  else String.intercalate " + " ((reasons.take 2).map (fun r => r.label))

/-- Source function `calibrateToMatchScore`: logistic squashing centred
at 0.52 with scale 0.1, affinely mapped, clamped to `[0, 99.4]` and
rounded to one decimal place. -/
noncomputable def calibrateToMatchScore (rawScore : ℝ) : ℝ :=
  let logistic := 1 / (1 + Real.exp (-(rawScore - 0.52) / 0.1))
  roundToSingleDecimal (clamp (12 + logistic * 86) 0 99.4)

/-- Raw weighted score with bonus and penalty adjustments, clamped to
`[0, 1]` — the `rawScore` computed inside `scoreCandidateDetailed`. -/
noncomputable def rawScoreOf (signals : ScoringSignals) : ℝ :=
  let base :=
    signals.genreScore * SIGNAL_WEIGHTS.genre +
    signals.keywordScore * SIGNAL_WEIGHTS.keyword +
    signals.castScore * SIGNAL_WEIGHTS.cast +
    (if signals.sameDirector then (1 : ℝ) else 0) * SIGNAL_WEIGHTS.director +
    signals.yearScore * SIGNAL_WEIGHTS.year +
    signals.runtimeScore * SIGNAL_WEIGHTS.runtime +
    signals.ratingScore * SIGNAL_WEIGHTS.rating +
    signals.confidenceScore * SIGNAL_WEIGHTS.confidence
  let withBonus := base +
    (if signals.sameDirector ∧ signals.genreScore ≥ 0.2 then (0.04 : ℝ) else 0) +
    (if signals.keywordScore ≥ 0.35 then (0.03 : ℝ) else 0)
  let withPenalty := withBonus -
    (if ¬signals.sameDirector ∧ signals.genreScore = 0 then (0.1 : ℝ) else 0) -
    (match signals.yearDiff with
     | some d => if d > 25 then (0.04 : ℝ) else 0
     | none => 0)
  clamp withPenalty 0 1

/-- Source function `scoreCandidateDetailed`: hard filters, raw score,
relevance floor, calibration and acceptance thresholds. -/
noncomputable def scoreCandidateDetailed (base candidate : ScoreFeatures) :
    Option DetailedScoringResult :=
  let signals := scoreSignals base candidate
  if ¬signals.sameDirector ∧ signals.genreScore < 0.1 ∧
      signals.keywordScore < 0.1 ∧ signals.castScore < 0.2 then none
  else if ¬signals.sameDirector ∧ candidate.voteCount < 35 then none
  else
    let rawScore := rawScoreOf signals
    if rawScore < 0.34 then none
    else
      let score := calibrateToMatchScore rawScore
      let threshold :=
        if signals.sameDirector then MIN_SCORE_SAME_DIRECTOR else MIN_SCORE_GENERAL
      if score < threshold then none
      else some { score := score, rawScore := rawScore,
                  reason := buildReason signals, sameDirector := signals.sameDirector }

/-- Source function `scoreCandidate`, the public scoring operation. -/
noncomputable def scoreCandidate (base candidate : ScoreFeatures) : Option ScoringResult :=
  (scoreCandidateDetailed base candidate).map
    (fun detailed => { score := detailed.score, reason := detailed.reason })

/-- Scored candidate flowing through the selector: the spread of a
`RankingCandidate` with `similarity_score`, `match_reason`, `relevance`. -/
structure ScoredCandidate where
  id : ℤ
  title : String
  poster_path : Option String
  release_date : Option String
  vote_average : ℝ
  director_id : Option ℤ
  features : ScoreFeatures
  similarity_score : ℝ
  match_reason : String
  relevance : ℝ

/-- Source function `pairSimilarity`, stated on the scored candidates it
is applied to inside the selection loop (it reads only `features`). -/
noncomputable def pairSimilarity (left right : ScoredCandidate) : ℝ :=
  let sameDirector : ℝ :=
    if sameDirectorB left.features.directorId right.features.directorId then 1 else 0
  let genreSimilarity := jaccardScore left.features.genreIds right.features.genreIds
  let eraSimilarity : ℝ :=
    match left.features.releaseYear, right.features.releaseYear with
    | some l, some r => clamp (1 - |l - r| / 20) 0 1
    | _, _ => 0.35
  clamp (sameDirector * 0.5 + genreSimilarity * 0.35 + eraSimilarity * 0.15) 0 1

/-- Map-then-filter stage of `rankCandidates`: score every candidate and
keep the accepted ones. -/
noncomputable def scorePool (base : ScoreFeatures) (candidates : List RankingCandidate) :
    List ScoredCandidate :=
  candidates.filterMap (fun candidate =>
    (scoreCandidateDetailed base candidate.features).map (fun scoredCandidate =>
      { id := candidate.id, title := candidate.title,
        poster_path := candidate.poster_path, release_date := candidate.release_date,
        vote_average := candidate.vote_average, director_id := candidate.director_id,
        features := candidate.features,
        similarity_score := scoredCandidate.score, match_reason := scoredCandidate.reason,
        relevance := scoredCandidate.score / 100 }))

/-- Strict precedence of the sort comparator in `rankCandidates`:
higher similarity score first, then higher vote average, then lower id. -/
def rankBefore (left right : ScoredCandidate) : Prop :=
  right.similarity_score < left.similarity_score ∨
    (left.similarity_score = right.similarity_score ∧
      (right.vote_average < left.vote_average ∨
        (left.vote_average = right.vote_average ∧ left.id < right.id)))

/-- Stable insertion modelling the stable JavaScript sort of the scored pool. -/
noncomputable def insertScored (x : ScoredCandidate) :
    List ScoredCandidate → List ScoredCandidate
  | [] => [x]
  | y :: ys => if rankBefore y x then y :: insertScored x ys else x :: y :: ys

/-- Stable sort of the scored pool by the `rankCandidates` comparator. -/
noncomputable def sortScored (l : List ScoredCandidate) : List ScoredCandidate :=
  l.foldr insertScored []

/-- Eligibility under the per-director cap: a candidate with a non-null
director id is skipped once that director has `MAX_PER_DIRECTOR` picks. -/
def eligible (counts : ℤ → ℕ) (candidate : ScoredCandidate) : Prop :=
  match candidate.director_id with
  | some d => counts d < MAX_PER_DIRECTOR
  | none => True

/-- Value of `Math.max(...)` over a list, guarded nonempty at use sites. -/
noncomputable def listMax : List ℝ → ℝ
  | [] => 0
  | [x] => x
  | x :: y :: ys => max x (listMax (y :: ys))

/-- Marginal-relevance objective of one candidate against the already
selected list: `0.78 * relevance - 0.22 * maxSimilarity`. -/
noncomputable def mmrValue (selected : List ScoredCandidate) (candidate : ScoredCandidate) : ℝ :=
  let maxSimilarity :=
    if selected = [] then 0
    else listMax (selected.map (fun picked => pairSimilarity candidate picked))
  0.78 * candidate.relevance - 0.22 * maxSimilarity

/-- One step of the inner argmax loop of `rankCandidates`: fold state is
`none` (no eligible candidate seen, `bestIndex = -1`) or the current
`(bestIndex, best, bestMmr)`. -/
noncomputable def considerCandidate (selected : List ScoredCandidate) (counts : ℤ → ℕ)
    (acc : Option (ℕ × ScoredCandidate × ℝ)) (entry : ℕ × ScoredCandidate) :
    Option (ℕ × ScoredCandidate × ℝ) :=
  if eligible counts entry.2 then
    let mmr := mmrValue selected entry.2
    match acc with
    | none => some (entry.1, entry.2, mmr)
    | some (bestIndex, best, bestMmr) =>
      if bestMmr < mmr then some (entry.1, entry.2, mmr)
      else if mmr = bestMmr ∧
          (best.similarity_score < entry.2.similarity_score ∨
            (entry.2.similarity_score = best.similarity_score ∧ entry.2.id < best.id)) then
        some (entry.1, entry.2, bestMmr)
      else some (bestIndex, best, bestMmr)
  else acc

/-- Inner loop of the selector: index of the eligible candidate with the
highest mmr, ties broken by higher calibrated score then lower id. -/
noncomputable def findBest (selected : List ScoredCandidate) (counts : ℤ → ℕ)
    (remaining : List ScoredCandidate) : Option (ℕ × ScoredCandidate × ℝ) :=
  remaining.enum.foldl (considerCandidate selected counts) none

/-- Update of the `directorCounts` map after a pick. -/
def bumpDirector (counts : ℤ → ℕ) : Option ℤ → ℤ → ℕ
  | some d => fun x => if x = d then counts x + 1 else counts x
  | none => counts

/-- Greedy MMR selection loop of `rankCandidates`; the fuel argument is
instantiated with the pool size, an upper bound on loop iterations since
every iteration removes one element from `remaining`. -/
noncomputable def selectLoop :
    ℕ → List ScoredCandidate → List ScoredCandidate → (ℤ → ℕ) → List ScoredCandidate
  | 0, _, selected, _ => selected
  | fuel + 1, remaining, selected, counts =>
    if remaining = [] ∨ MAX_RESULTS ≤ selected.length then selected
    else
      match findBest selected counts remaining with
      | none => selected
      | some (bestIndex, picked, _) =>
        selectLoop fuel (remaining.eraseIdx bestIndex) (selected ++ [picked])
          (bumpDirector counts picked.director_id)

/-- Final projection of a selected candidate to the output shape. -/
def toRankedMovie (movie : ScoredCandidate) : RankedMovie :=
  { id := movie.id, title := movie.title, poster_path := movie.poster_path,
    release_date := movie.release_date, vote_average := movie.vote_average,
    similarity_score := movie.similarity_score, match_reason := movie.match_reason,
    director_id := movie.director_id }

/-- Source function `rankCandidates`, the public selection operation. -/
noncomputable def rankCandidates (base : ScoreFeatures) (candidates : List RankingCandidate) :
    List RankedMovie :=
  let sorted := sortScored (scorePool base candidates)
  (selectLoop sorted.length sorted [] (fun _ => 0)).map toRankedMovie

/-- Number of entries of a selected pool carrying a given director id. -/
def dirCountS (l : List ScoredCandidate) (d : ℤ) : ℕ :=
  (l.filter (fun m => m.director_id = some d)).length

/-- Number of output entries carrying a given director id. -/
def dirCountR (l : List RankedMovie) (d : ℤ) : ℕ :=
  (l.filter (fun m => m.director_id = some d)).length

/-- Cast sub-score as the spec states it: the position weights summed
over the reference's first five cast slots whose member appears in the
candidate cast, divided by the weights summed over all occupied top-5
slots; 0 when either cast list is empty. -/
noncomputable def castOverlapSpec (baseCast candidateCast : List ℤ) : ℝ :=
  if baseCast = [] ∨ candidateCast = [] then 0
  else
    let n := min baseCast.length CAST_POSITION_WEIGHTS.length
    let den := ∑ i ∈ Finset.range n, CAST_POSITION_WEIGHTS.getD i 0
    let num := ∑ i ∈ Finset.range n,
      if baseCast.getD i 0 ∈ candidateCast then CAST_POSITION_WEIGHTS.getD i 0 else 0
    num / den

/-- Concrete reference features used by the witnesses (the reference
record of the repository's own test suite). -/
noncomputable def sampleFeatures : ScoreFeatures :=
  { genreIds := [28, 878, 53], directorId := some 99, castIds := [1, 2, 3, 4, 5],
    voteAverage := 8.2, voteCount := 1500, releaseYear := some 2010,
    runtimeMinutes := some 132, keywordIds := [10, 20, 30, 40] }

/-- Concrete different-director, low-vote-count candidate for witnesses. -/
noncomputable def lowVoteFeatures : ScoreFeatures :=
  { genreIds := [28, 878, 53], directorId := some 12, castIds := [1, 2, 3, 4, 5],
    voteAverage := 8.2, voteCount := 20, releaseYear := some 2010,
    runtimeMinutes := some 132, keywordIds := [10, 20, 30, 40] }

/-- Concrete all-empty feature record for witnesses. -/
noncomputable def emptyFeatures : ScoreFeatures :=
  { genreIds := [], directorId := none, castIds := [],
    voteAverage := 0, voteCount := 0, releaseYear := none,
    runtimeMinutes := none, keywordIds := [] }

/-! Selector invariants: result size cap and per-director cap. -/

lemma considerCandidate_eligible (selected : List ScoredCandidate) (counts : ℤ → ℕ)
    (acc : Option (ℕ × ScoredCandidate × ℝ)) (entry : ℕ × ScoredCandidate)
    (hacc : ∀ i c m, acc = some (i, c, m) → eligible counts c) :
    ∀ i c m, considerCandidate selected counts acc entry = some (i, c, m) →
      eligible counts c := by
  intro i c m h
  rcases acc with - | ⟨bi, bc, bm⟩
  · unfold considerCandidate at h
    by_cases he : eligible counts entry.2
    · rw [if_pos he] at h
      dsimp only at h
      simp only [Option.some.injEq, Prod.mk.injEq] at h
      rw [← h.2.1]
      exact he
    · rw [if_neg he] at h
      cases h
  · have hbc : eligible counts bc := hacc bi bc bm rfl
    unfold considerCandidate at h
    by_cases he : eligible counts entry.2
    · rw [if_pos he] at h
      dsimp only at h
      split_ifs at h <;> simp only [Option.some.injEq, Prod.mk.injEq] at h
      · rw [← h.2.1]; exact he
      · rw [← h.2.1]; exact he
      · rw [← h.2.1]; exact hbc
    · rw [if_neg he] at h
      exact hacc i c m h

lemma foldl_considerCandidate_eligible (selected : List ScoredCandidate) (counts : ℤ → ℕ)
    (entries : List (ℕ × ScoredCandidate)) :
    ∀ acc, (∀ i c m, acc = some (i, c, m) → eligible counts c) →
      ∀ i c m, entries.foldl (considerCandidate selected counts) acc = some (i, c, m) →
        eligible counts c := by
  induction entries with
  | nil => intro acc hacc i c m h; exact hacc i c m h
  | cons e es ih =>
    intro acc hacc i c m h
    exact ih (considerCandidate selected counts acc e)
      (considerCandidate_eligible selected counts acc e hacc) i c m h

lemma findBest_eligible (selected : List ScoredCandidate) (counts : ℤ → ℕ)
    (remaining : List ScoredCandidate) (i : ℕ) (c : ScoredCandidate) (m : ℝ)
    (h : findBest selected counts remaining = some (i, c, m)) : eligible counts c :=
  foldl_considerCandidate_eligible selected counts remaining.enum none
    (by intro _ _ _ h; cases h) i c m h

lemma selectLoop_length (fuel : ℕ) :
    ∀ remaining selected counts, selected.length ≤ MAX_RESULTS →
      (selectLoop fuel remaining selected counts).length ≤ MAX_RESULTS := by
  induction fuel with
  | zero => intro remaining selected counts h; exact h
  | succ fuel ih =>
    intro remaining selected counts h
    unfold selectLoop
    split_ifs with hstop
    · exact h
    · push_neg at hstop
      rcases hfb : findBest selected counts remaining with - | ⟨bestIndex, picked, mmr⟩
      · exact h
      · apply ih
        have : selected.length < MAX_RESULTS := hstop.2
        simp only [List.length_append, List.length_cons, List.length_nil]
        omega

lemma dirCountS_append (l₁ l₂ : List ScoredCandidate) (d : ℤ) :
    dirCountS (l₁ ++ l₂) d = dirCountS l₁ d + dirCountS l₂ d := by
  simp [dirCountS, List.filter_append]

lemma dirCountS_singleton (c : ScoredCandidate) (d : ℤ) :
    dirCountS [c] d = if c.director_id = some d then 1 else 0 := by
  simp only [dirCountS, List.filter]
  split_ifs with hd
  · simp [hd]
  · simp [hd]

lemma selectLoop_dirCount (fuel : ℕ) :
    ∀ remaining selected counts,
      (∀ d, dirCountS selected d = counts d) →
      (∀ d, counts d ≤ MAX_PER_DIRECTOR) →
      ∀ d, dirCountS (selectLoop fuel remaining selected counts) d ≤ MAX_PER_DIRECTOR := by
  induction fuel with
  | zero =>
    intro remaining selected counts htrack hcap d
    rw [selectLoop, htrack d]
    exact hcap d
  | succ fuel ih =>
    intro remaining selected counts htrack hcap d
    unfold selectLoop
    split_ifs with hstop
    · rw [htrack d]; exact hcap d
    · rcases hfb : findBest selected counts remaining with - | ⟨bestIndex, picked, mmr⟩
      · rw [htrack d]; exact hcap d
      · have helig : eligible counts picked :=
          findBest_eligible selected counts remaining bestIndex picked mmr hfb
        apply ih
        · intro d₀
          rw [dirCountS_append, dirCountS_singleton, htrack d₀]
          rcases hpd : picked.director_id with - | pd
          · simp [bumpDirector, hpd]
          · simp only [bumpDirector, hpd]
            by_cases hd₀ : pd = d₀
            · subst hd₀
              simp
            · have : ¬(some pd = some d₀) := by simp [hd₀]
              simp [this, Ne.symm hd₀]
        · intro d₀
          rcases hpd : picked.director_id with - | pd
          · simp only [bumpDirector, hpd]
            exact hcap d₀
          · simp only [bumpDirector, hpd]
            by_cases hd₀ : d₀ = pd
            · subst hd₀
              unfold eligible at helig
              rw [hpd] at helig
              dsimp only at helig
              rw [if_pos rfl]
              omega
            · simp [hd₀]
              exact hcap d₀

lemma signals_sameDirector (base candidate : ScoreFeatures) :
    (scoreSignals base candidate).sameDirector =
      sameDirectorB base.directorId candidate.directorId := rfl

lemma signals_genre (base candidate : ScoreFeatures) :
    (scoreSignals base candidate).genreScore =
      jaccardScore base.genreIds candidate.genreIds := rfl

lemma signals_keyword (base candidate : ScoreFeatures) :
    (scoreSignals base candidate).keywordScore =
      jaccardScore base.keywordIds candidate.keywordIds := rfl

lemma signals_cast (base candidate : ScoreFeatures) :
    (scoreSignals base candidate).castScore =
      weightedCastOverlap base.castIds candidate.castIds := rfl

lemma jaccardScore_disjoint (left right : List ℤ) (h : ∀ x ∈ left, x ∉ right) :
    jaccardScore left right = 0 := by
  simp only [jaccardScore]
  split_ifs with he hu
  · rfl
  · rfl
  · have hinter : left.toFinset ∩ right.toFinset = ∅ := by
      apply Finset.eq_empty_of_forall_not_mem
      intro x hx
      rw [Finset.mem_inter, List.mem_toFinset, List.mem_toFinset] at hx
      exact h x hx.1 hx.2
    rw [hinter]
    simp

lemma weightedCastOverlap_disjoint (baseCast candidateCast : List ℤ)
    (h : ∀ x ∈ baseCast, x ∉ candidateCast) :
    weightedCastOverlap baseCast candidateCast = 0 := by
  simp only [weightedCastOverlap]
  split_ifs with he hm
  · rfl
  · rfl
  · have hnil : ((baseCast.take CAST_POSITION_WEIGHTS.length).zip
        CAST_POSITION_WEIGHTS).filterMap
        (fun p => if p.1 ∈ candidateCast then some p.2 else none) = [] := by
      rw [List.filterMap_eq_nil_iff]
      intro p hp
      obtain ⟨a, b⟩ := p
      have ha : a ∈ baseCast := List.take_subset _ _ (List.of_mem_zip hp).1
      simpa using h a ha
    rw [hnil]
    simp

lemma scoreCandidate_none_of_detailed (base candidate : ScoreFeatures)
    (h : scoreCandidateDetailed base candidate = none) :
    scoreCandidate base candidate = none := by
  simp [scoreCandidate, h]

lemma scoreCandidateDetailed_none_topical (base candidate : ScoreFeatures)
    (h : ¬(scoreSignals base candidate).sameDirector ∧
      (scoreSignals base candidate).genreScore < 0.1 ∧
      (scoreSignals base candidate).keywordScore < 0.1 ∧
      (scoreSignals base candidate).castScore < 0.2) :
    scoreCandidateDetailed base candidate = none := by
  simp only [scoreCandidateDetailed]
  rw [if_pos h]

lemma scoreCandidateDetailed_none_votes (base candidate : ScoreFeatures)
    (hsd : (scoreSignals base candidate).sameDirector = false)
    (hv : candidate.voteCount < 35) :
    scoreCandidateDetailed base candidate = none := by
  simp only [scoreCandidateDetailed]
  by_cases h1 : (¬(scoreSignals base candidate).sameDirector ∧
      (scoreSignals base candidate).genreScore < 0.1 ∧
      (scoreSignals base candidate).keywordScore < 0.1 ∧
      (scoreSignals base candidate).castScore < 0.2)
  · rw [if_pos h1]
  · rw [if_neg h1, if_pos ⟨by simp [hsd], hv⟩]

/-- C1: the list returned by `rankCandidates` has length at most 18, and
for every non-null director id at most 2 of its entries carry that id. -/
theorem C1_selection_caps (base : ScoreFeatures) (candidates : List RankingCandidate) :
    (rankCandidates base candidates).length ≤ 18 ∧
    ∀ d : ℤ, ((rankCandidates base candidates).filter
      (fun m => m.director_id = some d)).length ≤ 2 := by
  unfold rankCandidates
  constructor
  · rw [List.length_map]
    have h := selectLoop_length (sortScored (scorePool base candidates)).length
      (sortScored (scorePool base candidates)) [] (fun _ => 0)
      (by simp [MAX_RESULTS])
    simpa [MAX_RESULTS] using h
  · intro d
    have hmap : ∀ l : List ScoredCandidate,
        ((l.map toRankedMovie).filter (fun m => m.director_id = some d)).length =
          dirCountS l d := by
      intro l
      induction l with
      | nil => rfl
      | cons x xs ihx =>
        simp only [List.map_cons, List.filter_cons, dirCountS, toRankedMovie] at ihx ⊢
        by_cases hx : x.director_id = some d
        · simp [hx, ihx]
        · simp [hx, ihx]
    rw [hmap]
    have h := selectLoop_dirCount (sortScored (scorePool base candidates)).length
      (sortScored (scorePool base candidates)) [] (fun _ => 0)
      (fun _ => rfl) (fun _ => by simp [MAX_PER_DIRECTOR]) d
    simpa [MAX_PER_DIRECTOR] using h

/-- C2: when the directors differ (or either is null), scoring returns
none whenever the candidate vote count is below 35, whenever all three
topical sub-scores are below their floors, and in particular whenever
the genre, keyword and cast id sets are disjoint. -/
theorem C2_reject_filters (base candidate : ScoreFeatures)
    (hdir : sameDirectorB base.directorId candidate.directorId = false) :
    (candidate.voteCount < 35 → scoreCandidate base candidate = none) ∧
    ((scoreSignals base candidate).genreScore < 0.1 ∧
        (scoreSignals base candidate).keywordScore < 0.1 ∧
        (scoreSignals base candidate).castScore < 0.2 →
      scoreCandidate base candidate = none) ∧
    ((∀ g ∈ base.genreIds, g ∉ candidate.genreIds) ∧
        (∀ k ∈ base.keywordIds, k ∉ candidate.keywordIds) ∧
        (∀ a ∈ base.castIds, a ∉ candidate.castIds) →
      scoreCandidate base candidate = none) := by
  have hsd : (scoreSignals base candidate).sameDirector = false := by
    rw [signals_sameDirector]; exact hdir
  refine ⟨fun hv => ?_, fun hs => ?_, fun hdisj => ?_⟩
  · exact scoreCandidate_none_of_detailed _ _
      (scoreCandidateDetailed_none_votes _ _ hsd hv)
  · exact scoreCandidate_none_of_detailed _ _
      (scoreCandidateDetailed_none_topical _ _ ⟨by simp [hsd], hs⟩)
  · apply scoreCandidate_none_of_detailed
    apply scoreCandidateDetailed_none_topical
    refine ⟨by simp [hsd], ?_, ?_, ?_⟩
    · rw [signals_genre, jaccardScore_disjoint _ _ hdisj.1]; norm_num
    · rw [signals_keyword, jaccardScore_disjoint _ _ hdisj.2.1]; norm_num
    · rw [signals_cast, weightedCastOverlap_disjoint _ _ hdisj.2.2]; norm_num

/-- Witness for C2: the repository test's different-director candidate
with vote count 20 is rejected. -/
theorem C2_reject_filters_witness :
    sameDirectorB sampleFeatures.directorId lowVoteFeatures.directorId = false ∧
    lowVoteFeatures.voteCount < 35 ∧
    scoreCandidate sampleFeatures lowVoteFeatures = none := by
  have hdir : sameDirectorB sampleFeatures.directorId lowVoteFeatures.directorId = false := by
    rfl
  have hv : lowVoteFeatures.voteCount < 35 := by
    show (20 : ℝ) < 35
    norm_num
  exact ⟨hdir, hv, (C2_reject_filters sampleFeatures lowVoteFeatures hdir).1 hv⟩

lemma detailed_none_low_raw (base candidate : ScoreFeatures)
    (h : rawScoreOf (scoreSignals base candidate) < 0.34) :
    scoreCandidateDetailed base candidate = none := by
  simp only [scoreCandidateDetailed]
  split_ifs <;> rfl

lemma detailed_none_low_calibrated (base candidate : ScoreFeatures)
    (h : calibrateToMatchScore (rawScoreOf (scoreSignals base candidate)) <
      (if (scoreSignals base candidate).sameDirector then MIN_SCORE_SAME_DIRECTOR
       else MIN_SCORE_GENERAL)) :
    scoreCandidateDetailed base candidate = none := by
  simp only [scoreCandidateDetailed]
  split_ifs <;> rfl

lemma detailed_some_spec (base candidate : ScoreFeatures) (r : DetailedScoringResult)
    (h : scoreCandidateDetailed base candidate = some r) :
    r.score = calibrateToMatchScore (rawScoreOf (scoreSignals base candidate)) ∧
    r.rawScore = rawScoreOf (scoreSignals base candidate) ∧
    ¬(r.score < (if (scoreSignals base candidate).sameDirector then MIN_SCORE_SAME_DIRECTOR
        else MIN_SCORE_GENERAL)) ∧
    ¬(r.rawScore < 0.34) ∧
    r.reason = buildReason (scoreSignals base candidate) ∧
    r.sameDirector = (scoreSignals base candidate).sameDirector := by
  simp only [scoreCandidateDetailed] at h
  by_cases h1 : (¬(scoreSignals base candidate).sameDirector ∧
      (scoreSignals base candidate).genreScore < 0.1 ∧
      (scoreSignals base candidate).keywordScore < 0.1 ∧
      (scoreSignals base candidate).castScore < 0.2)
  · rw [if_pos h1] at h; cases h
  rw [if_neg h1] at h
  by_cases h2 : (¬(scoreSignals base candidate).sameDirector ∧ candidate.voteCount < 35)
  · rw [if_pos h2] at h; cases h
  rw [if_neg h2] at h
  by_cases h3 : rawScoreOf (scoreSignals base candidate) < 0.34
  · rw [if_pos h3] at h; cases h
  rw [if_neg h3] at h
  by_cases h4 : calibrateToMatchScore (rawScoreOf (scoreSignals base candidate)) <
      (if (scoreSignals base candidate).sameDirector then MIN_SCORE_SAME_DIRECTOR
       else MIN_SCORE_GENERAL)
  · rw [if_pos h4] at h; cases h
  rw [if_neg h4] at h
  simp only [Option.some.injEq] at h
  rw [← h]
  exact ⟨rfl, rfl, h4, h3, rfl, rfl⟩

/-! Calibration analysis. -/

lemma round_mono {x y : ℝ} (h : x ≤ y) : round x ≤ round y := by
  rw [round_eq, round_eq]
  exact Int.floor_le_floor (by linarith)

lemma exp_two_gt_seven : (7 : ℝ) < Real.exp 2 := by
  have h1 : (2.7182818283 : ℝ) < Real.exp 1 := Real.exp_one_gt_d9
  have h2 : Real.exp 2 = Real.exp 1 ^ 2 := by
    rw [← Real.exp_nat_mul]
    norm_num
  rw [h2]
  nlinarith [Real.exp_pos 1]

lemma exp_five_lt_149 : Real.exp 5 < 149 := by
  have h1 : Real.exp 1 < 2.7182818286 := Real.exp_one_lt_d9
  have h2 : Real.exp 5 = Real.exp 1 ^ 5 := by
    rw [← Real.exp_nat_mul]
    norm_num
  have hp : Real.exp 1 ^ 5 < 2.7182818286 ^ 5 :=
    pow_lt_pow_left₀ h1 (Real.exp_pos 1).le (by norm_num)
  rw [h2]
  calc Real.exp 1 ^ 5 < 2.7182818286 ^ 5 := hp
    _ < 149 := by norm_num

lemma calibrate_mono {r₁ r₂ : ℝ} (h : r₁ ≤ r₂) :
    calibrateToMatchScore r₁ ≤ calibrateToMatchScore r₂ := by
  simp only [calibrateToMatchScore, roundToSingleDecimal, clamp]
  have hexp : Real.exp (-(r₂ - 0.52) / 0.1) ≤ Real.exp (-(r₁ - 0.52) / 0.1) :=
    Real.exp_le_exp.mpr ((div_le_div_right (by norm_num : (0:ℝ) < 0.1)).mpr (by linarith))
  have hlog : 1 / (1 + Real.exp (-(r₁ - 0.52) / 0.1)) ≤
      1 / (1 + Real.exp (-(r₂ - 0.52) / 0.1)) := by
    apply one_div_le_one_div_of_le
    · positivity
    · linarith
  have hinner : 12 + 1 / (1 + Real.exp (-(r₁ - 0.52) / 0.1)) * 86 ≤
      12 + 1 / (1 + Real.exp (-(r₂ - 0.52) / 0.1)) * 86 := by linarith
  have hclamp : max 0 (min 99.4 (12 + 1 / (1 + Real.exp (-(r₁ - 0.52) / 0.1)) * 86)) ≤
      max 0 (min 99.4 (12 + 1 / (1 + Real.exp (-(r₂ - 0.52) / 0.1)) * 86)) :=
    max_le_max (le_refl 0) (min_le_min (le_refl _) hinner)
  have hround := round_mono (mul_le_mul_of_nonneg_right hclamp (by norm_num : (0:ℝ) ≤ 10))
  have hcast : ((round (max 0 (min 99.4 (12 + 1 / (1 + Real.exp (-(r₁ - 0.52) / 0.1)) * 86)) * 10) : ℤ) : ℝ) ≤
      ((round (max 0 (min 99.4 (12 + 1 / (1 + Real.exp (-(r₂ - 0.52) / 0.1)) * 86)) * 10) : ℤ) : ℝ) := by
    exact_mod_cast hround
  linarith

lemma calibrate_lt_98 {r : ℝ} (h : r ≤ 1) : calibrateToMatchScore r < 98 := by
  simp only [calibrateToMatchScore, roundToSingleDecimal, clamp]
  set x := Real.exp (-(r - 0.52) / 0.1) with hx
  have h48 : Real.exp 4.8 < 149 :=
    lt_of_le_of_lt (Real.exp_le_exp.mpr (by norm_num)) exp_five_lt_149
  have hx1 : Real.exp (-4.8) ≤ x := by
    rw [hx]
    apply Real.exp_le_exp.mpr
    rw [le_div_iff (by norm_num : (0:ℝ) < 0.1)]
    linarith
  have hx2 : (1 : ℝ) / 149 < Real.exp (-4.8) := by
    rw [Real.exp_neg, ← one_div]
    exact one_div_lt_one_div_of_lt (Real.exp_pos 4.8) h48
  have hxpos : 0 < x := Real.exp_pos _
  have hL : 1 / (1 + x) < 149 / 150 := by
    have h1x : (150 : ℝ) / 149 < 1 + x := by linarith
    have hh := one_div_lt_one_div_of_lt (by norm_num : (0:ℝ) < 150 / 149) h1x
    have : (1 : ℝ) / (150 / 149) = 149 / 150 := by norm_num
    linarith
  have hv : 12 + 1 / (1 + x) * 86 < 97.43 := by linarith
  have hclamp : max 0 (min 99.4 (12 + 1 / (1 + x) * 86)) ≤ 97.43 :=
    max_le (by norm_num) (le_trans (min_le_right _ _) hv.le)
  have h10 : max 0 (min 99.4 (12 + 1 / (1 + x) * 86)) * 10 ≤ 974.3 := by linarith
  have hr : round (max 0 (min 99.4 (12 + 1 / (1 + x) * 86)) * 10) ≤ 974 := by
    calc round (max 0 (min 99.4 (12 + 1 / (1 + x) * 86)) * 10) ≤ round (974.3 : ℝ) :=
          round_mono h10
      _ = 974 := by rw [round_eq]; norm_num
  have hcast : ((round (max 0 (min 99.4 (12 + 1 / (1 + x) * 86)) * 10) : ℤ) : ℝ) ≤ 974 := by
    exact_mod_cast hr
  linarith

lemma calibrate_ge_85 {r : ℝ} (h : 0.959 ≤ r) : 85 ≤ calibrateToMatchScore r := by
  simp only [calibrateToMatchScore, roundToSingleDecimal, clamp]
  set x := Real.exp (-(r - 0.52) / 0.1) with hx
  have hxpos : 0 < x := Real.exp_pos _
  have hx1 : x ≤ Real.exp (-2) := by
    rw [hx]
    apply Real.exp_le_exp.mpr
    rw [div_le_iff (by norm_num : (0:ℝ) < 0.1)]
    linarith
  have hx2 : Real.exp (-2) ≤ 1 / 7 := by
    rw [Real.exp_neg, ← one_div]
    exact one_div_le_one_div_of_le (by norm_num) exp_two_gt_seven.le
  have hL : 7 / 8 ≤ 1 / (1 + x) := by
    have h1x : 1 + x ≤ 8 / 7 := by linarith
    have hh := one_div_le_one_div_of_le (by positivity) h1x
    have : (1 : ℝ) / (8 / 7) = 7 / 8 := by norm_num
    linarith
  have hL1 : 1 / (1 + x) < 1 := by
    rw [div_lt_one (by positivity)]
    linarith
  have hv : 87.25 ≤ 12 + 1 / (1 + x) * 86 := by linarith
  have hvu : 12 + 1 / (1 + x) * 86 < 98 := by linarith
  have hmin : min 99.4 (12 + 1 / (1 + x) * 86) = 12 + 1 / (1 + x) * 86 :=
    min_eq_right (by linarith)
  have hclamp : 87.25 ≤ max 0 (min 99.4 (12 + 1 / (1 + x) * 86)) := by
    rw [hmin]
    exact le_trans hv (le_max_right 0 _)
  have h10 : (872.5 : ℝ) ≤ max 0 (min 99.4 (12 + 1 / (1 + x) * 86)) * 10 := by linarith
  have hr : (873 : ℤ) ≤ round (max 0 (min 99.4 (12 + 1 / (1 + x) * 86)) * 10) := by
    calc (873 : ℤ) = round (872.5 : ℝ) := by rw [round_eq]; norm_num
      _ ≤ round (max 0 (min 99.4 (12 + 1 / (1 + x) * 86)) * 10) := round_mono h10
  have hcast : (873 : ℝ) ≤ ((round (max 0 (min 99.4 (12 + 1 / (1 + x) * 86)) * 10) : ℤ) : ℝ) := by
    exact_mod_cast hr
  linarith

lemma rawScoreOf_nonneg (signals : ScoringSignals) : 0 ≤ rawScoreOf signals :=
  le_max_left 0 _

lemma rawScoreOf_le_one (signals : ScoringSignals) : rawScoreOf signals ≤ 1 :=
  max_le (by norm_num) (min_le_left _ _)

/-- C3: scoring returns none when the clamped adjusted raw score is
below 0.34, and none when the calibrated percentage is below the
threshold (40 for same-director, 46 otherwise); consequently every
returned percentage meets its threshold. -/
theorem C3_relevance_floors (base candidate : ScoreFeatures) :
    (rawScoreOf (scoreSignals base candidate) < 0.34 →
      scoreCandidate base candidate = none) ∧
    (calibrateToMatchScore (rawScoreOf (scoreSignals base candidate)) <
        (if (scoreSignals base candidate).sameDirector then MIN_SCORE_SAME_DIRECTOR
         else MIN_SCORE_GENERAL) →
      scoreCandidate base candidate = none) ∧
    (∀ result, scoreCandidate base candidate = some result →
      (if (scoreSignals base candidate).sameDirector then (40 : ℝ) else 46) ≤ result.score) := by
  refine ⟨fun h => ?_, fun h => ?_, fun result h => ?_⟩
  · exact scoreCandidate_none_of_detailed _ _ (detailed_none_low_raw _ _ h)
  · exact scoreCandidate_none_of_detailed _ _ (detailed_none_low_calibrated _ _ h)
  · rw [scoreCandidate, Option.map_eq_some'] at h
    obtain ⟨detailed, hdet, hres⟩ := h
    obtain ⟨hscore, -, hthr, -, -, -⟩ := detailed_some_spec base candidate detailed hdet
    push_neg at hthr
    rw [← hres]
    by_cases hsd : (scoreSignals base candidate).sameDirector
    · rw [if_pos hsd] at hthr ⊢
      simpa [MIN_SCORE_SAME_DIRECTOR] using hthr
    · rw [if_neg hsd] at hthr ⊢
      simpa [MIN_SCORE_GENERAL] using hthr

/-- Witness for C3: the all-empty pair has clamped raw score 0.029,
below the 0.34 floor, and is rejected. -/
theorem C3_relevance_floors_witness :
    rawScoreOf (scoreSignals emptyFeatures emptyFeatures) < 0.34 ∧
    scoreCandidate emptyFeatures emptyFeatures = none := by
  have hsig : scoreSignals emptyFeatures emptyFeatures =
      { genreScore := 0, keywordScore := 0, castScore := 0, yearScore := 0.45,
        runtimeScore := 0.55, ratingScore := 1, confidenceScore := 0,
        sameDirector := false, yearDiff := none, runtimeDiff := none } := by
    simp [scoreSignals, emptyFeatures, jaccardScore, weightedCastOverlap, clamp,
      sameDirectorB, Real.logb_one]
  have hraw : rawScoreOf (scoreSignals emptyFeatures emptyFeatures) < 0.34 := by
    rw [hsig]
    simp only [rawScoreOf, SIGNAL_WEIGHTS, clamp]
    norm_num
  exact ⟨hraw, (C3_relevance_floors emptyFeatures emptyFeatures).1 hraw⟩

/-- C6: the calibration function is monotone non-decreasing on `[0, 1]`. -/
theorem C6_calibration_monotone (r₁ r₂ : ℝ) (h₀ : 0 ≤ r₁) (h₁₂ : r₁ ≤ r₂) (h₁ : r₂ ≤ 1) :
    calibrateToMatchScore r₁ ≤ calibrateToMatchScore r₂ :=
  calibrate_mono h₁₂

/-- Witness for C6 at the endpoints of the calibration range. -/
theorem C6_calibration_monotone_witness :
    (0 : ℝ) ≤ 0 ∧ (0 : ℝ) ≤ 1 ∧ (1 : ℝ) ≤ 1 ∧
      calibrateToMatchScore 0 ≤ calibrateToMatchScore 1 :=
  ⟨le_refl 0, by norm_num, le_refl 1,
    C6_calibration_monotone 0 1 (le_refl 0) (by norm_num) (le_refl 1)⟩

/-- C9: the calibrated percentage is strictly below 98 on all of `[0, 1]`
(so the 99.4 clamp ceiling is never attained), and every accepted score
lies in `[40, 98)`. -/
theorem C9_output_range (base candidate : ScoreFeatures) :
    (∀ r : ℝ, 0 ≤ r → r ≤ 1 → calibrateToMatchScore r < 98) ∧
    (∀ result, scoreCandidate base candidate = some result →
      40 ≤ result.score ∧ result.score < 98) := by
  refine ⟨fun r h₀ h₁ => calibrate_lt_98 h₁, fun result h => ?_⟩
  rw [scoreCandidate, Option.map_eq_some'] at h
  obtain ⟨detailed, hdet, hres⟩ := h
  obtain ⟨hscore, -, hthr, -, -, -⟩ := detailed_some_spec base candidate detailed hdet
  push_neg at hthr
  constructor
  · rw [← hres]
    by_cases hsd : (scoreSignals base candidate).sameDirector
    · rw [if_pos hsd] at hthr
      simpa [MIN_SCORE_SAME_DIRECTOR] using hthr
    · rw [if_neg hsd] at hthr
      have : (46 : ℝ) ≤ detailed.score := by
        simpa [MIN_SCORE_GENERAL] using hthr
      dsimp only
      linarith
  · rw [← hres]
    dsimp only
    rw [hscore]
    exact calibrate_lt_98 (rawScoreOf_le_one _)

/-- Witness for C9 at the concrete raw score 0. -/
theorem C9_output_range_witness :
    (0 : ℝ) ≤ 0 ∧ (0 : ℝ) ≤ 1 ∧ calibrateToMatchScore 0 < 98 :=
  ⟨le_refl 0, by norm_num,
    (C9_output_range emptyFeatures emptyFeatures).1 0 (le_refl 0) (by norm_num)⟩

/-- C5: selection is deterministic — equal inputs give equal outputs;
the embedded pipeline is a pure function of the reference features and
the candidate list. -/
theorem C5_select_deterministic (base₁ base₂ : ScoreFeatures)
    (candidates₁ candidates₂ : List RankingCandidate)
    (hb : base₁ = base₂) (hc : candidates₁ = candidates₂) :
    rankCandidates base₁ candidates₁ = rankCandidates base₂ candidates₂ := by
  rw [hb, hc]

/-- Witness for C5 at a concrete input. -/
theorem C5_select_deterministic_witness :
    rankCandidates sampleFeatures [] = rankCandidates sampleFeatures [] :=
  C5_select_deterministic sampleFeatures sampleFeatures [] [] rfl rfl

/-! Set semantics of the genre and keyword id lists. -/

lemma jaccardScore_toFinset_congr (l₁ l₂ r₁ r₂ : List ℤ)
    (hl : l₁.toFinset = l₂.toFinset) (hr : r₁.toFinset = r₂.toFinset) :
    jaccardScore l₁ r₁ = jaccardScore l₂ r₂ := by
  have hl0 : l₁ = [] ↔ l₂ = [] := by
    rw [← List.toFinset_eq_empty_iff, ← List.toFinset_eq_empty_iff, hl]
  have hr0 : r₁ = [] ↔ r₂ = [] := by
    rw [← List.toFinset_eq_empty_iff, ← List.toFinset_eq_empty_iff, hr]
  simp only [jaccardScore, hl, hr, hl0, hr0]

lemma scoreSignals_toFinset_congr (base candidate : ScoreFeatures)
    (bg bk cg ck : List ℤ)
    (hbg : bg.toFinset = base.genreIds.toFinset)
    (hbk : bk.toFinset = base.keywordIds.toFinset)
    (hcg : cg.toFinset = candidate.genreIds.toFinset)
    (hck : ck.toFinset = candidate.keywordIds.toFinset) :
    scoreSignals { base with genreIds := bg, keywordIds := bk }
        { candidate with genreIds := cg, keywordIds := ck } =
      scoreSignals base candidate := by
  have hg := jaccardScore_toFinset_congr bg base.genreIds cg candidate.genreIds hbg hcg
  have hk := jaccardScore_toFinset_congr bk base.keywordIds ck candidate.keywordIds hbk hck
  simp only [scoreSignals]
  rw [hg, hk]

/-- C10: scoring treats genre and keyword id lists as sets — replacing
any of the four lists by one with the same underlying finite set (for
instance a permutation, or a version with duplicated entries) leaves the
result of `scoreCandidate` unchanged. -/
theorem C10_id_lists_as_sets (base candidate : ScoreFeatures)
    (bg bk cg ck : List ℤ)
    (hbg : bg.toFinset = base.genreIds.toFinset)
    (hbk : bk.toFinset = base.keywordIds.toFinset)
    (hcg : cg.toFinset = candidate.genreIds.toFinset)
    (hck : ck.toFinset = candidate.keywordIds.toFinset) :
    scoreCandidate { base with genreIds := bg, keywordIds := bk }
        { candidate with genreIds := cg, keywordIds := ck } =
      scoreCandidate base candidate := by
  have hs := scoreSignals_toFinset_congr base candidate bg bk cg ck hbg hbk hcg hck
  simp only [scoreCandidate, scoreCandidateDetailed, hs]

/-- Witness for C10: permuting and duplicating the genre and keyword
lists of the sample pair does not change the score. -/
theorem C10_id_lists_as_sets_witness :
    scoreCandidate
        { sampleFeatures with genreIds := [878, 28, 53, 53], keywordIds := [40, 10, 20, 30, 30] }
        { lowVoteFeatures with genreIds := [53, 878, 28, 28], keywordIds := [20, 10, 40, 30, 40] } =
      scoreCandidate sampleFeatures lowVoteFeatures :=
  C10_id_lists_as_sets sampleFeatures lowVoteFeatures
    [878, 28, 53, 53] [40, 10, 20, 30, 30] [53, 878, 28, 28] [20, 10, 40, 30, 40]
    (by decide) (by decide) (by decide) (by decide)

/-! Cast sub-score analysis. -/

lemma zip_filterMap_sum (c : List ℤ) :
    ∀ (lb : List ℤ) (ws : List ℝ),
      ((lb.zip ws).filterMap (fun p => if p.1 ∈ c then some p.2 else none)).sum =
        ∑ i ∈ Finset.range (min lb.length ws.length),
          (if lb.getD i 0 ∈ c then ws.getD i 0 else 0) := by
  intro lb
  induction lb with
  | nil => intro ws; simp
  | cons x xs ih =>
    intro ws
    cases ws with
    | nil => simp
    | cons w ws' =>
      have hmin : min (x :: xs).length (w :: ws').length = min xs.length ws'.length + 1 := by
        simp only [List.length_cons]
        omega
      rw [hmin, Finset.sum_range_succ']
      simp only [List.getD_cons_succ, List.getD_cons_zero]
      rw [← ih ws']
      by_cases hx : x ∈ c
      · simp [List.zip_cons_cons, List.filterMap_cons, hx, add_comm]
      · simp [List.zip_cons_cons, List.filterMap_cons, hx]

lemma zip_map_snd_sum :
    ∀ (lb : List ℤ) (ws : List ℝ),
      ((lb.zip ws).map Prod.snd).sum =
        ∑ i ∈ Finset.range (min lb.length ws.length), ws.getD i 0 := by
  intro lb
  induction lb with
  | nil => intro ws; simp
  | cons x xs ih =>
    intro ws
    cases ws with
    | nil => simp
    | cons w ws' =>
      have hmin : min (x :: xs).length (w :: ws').length = min xs.length ws'.length + 1 := by
        simp only [List.length_cons]
        omega
      rw [hmin, Finset.sum_range_succ']
      simp only [List.getD_cons_succ, List.getD_cons_zero]
      rw [← ih ws']
      simp [List.zip_cons_cons, add_comm]

lemma take_getD (l : List ℤ) :
    ∀ (k i : ℕ), i < k → (l.take k).getD i 0 = l.getD i 0 := by
  induction l with
  | nil => intro k i _; simp
  | cons x xs ih =>
    intro k i hik
    cases k with
    | zero => omega
    | succ k' =>
      cases i with
      | zero => simp
      | succ i' =>
        simp only [List.take_succ_cons, List.getD_cons_succ]
        exact ih k' i' (by omega)

lemma weights_length : CAST_POSITION_WEIGHTS.length = 5 := by
  simp [CAST_POSITION_WEIGHTS]

lemma weights_getD_pos (i : ℕ) (hi : i < CAST_POSITION_WEIGHTS.length) :
    0 < CAST_POSITION_WEIGHTS.getD i 0 := by
  rw [weights_length] at hi
  interval_cases i <;> norm_num [CAST_POSITION_WEIGHTS]

lemma castDen_pos (lb : List ℤ) (h : lb ≠ []) :
    0 < ∑ i ∈ Finset.range (min lb.length CAST_POSITION_WEIGHTS.length),
      CAST_POSITION_WEIGHTS.getD i 0 := by
  apply Finset.sum_pos
  · intro i hi
    rw [Finset.mem_range] at hi
    exact weights_getD_pos i (lt_of_lt_of_le hi (min_le_right _ _))
  · rw [Finset.nonempty_range_iff]
    have hl : 0 < lb.length := List.length_pos.mpr h
    have hw : 0 < CAST_POSITION_WEIGHTS.length := by rw [weights_length]; omega
    omega

lemma castNum_nonneg (b c : List ℤ) :
    0 ≤ ∑ i ∈ Finset.range (min b.length CAST_POSITION_WEIGHTS.length),
      (if b.getD i 0 ∈ c then CAST_POSITION_WEIGHTS.getD i 0 else 0) := by
  apply Finset.sum_nonneg
  intro i hi
  rw [Finset.mem_range] at hi
  split_ifs
  · exact (weights_getD_pos i (lt_of_lt_of_le hi (min_le_right _ _))).le
  · exact le_refl 0

lemma castNum_le_den (b c : List ℤ) :
    (∑ i ∈ Finset.range (min b.length CAST_POSITION_WEIGHTS.length),
        (if b.getD i 0 ∈ c then CAST_POSITION_WEIGHTS.getD i 0 else 0)) ≤
      ∑ i ∈ Finset.range (min b.length CAST_POSITION_WEIGHTS.length),
        CAST_POSITION_WEIGHTS.getD i 0 := by
  apply Finset.sum_le_sum
  intro i hi
  rw [Finset.mem_range] at hi
  split_ifs
  · exact le_refl _
  · exact (weights_getD_pos i (lt_of_lt_of_le hi (min_le_right _ _))).le

lemma weightedCastOverlap_eq_spec (b c : List ℤ) :
    weightedCastOverlap b c = castOverlapSpec b c := by
  by_cases h : b = [] ∨ c = []
  · simp only [weightedCastOverlap, castOverlapSpec, if_pos h]
  · simp only [weightedCastOverlap, castOverlapSpec, if_neg h]
    push_neg at h
    have hidx : min (b.take CAST_POSITION_WEIGHTS.length).length CAST_POSITION_WEIGHTS.length =
        min b.length CAST_POSITION_WEIGHTS.length := by
      rw [List.length_take]
      omega
    have hms : (((b.take CAST_POSITION_WEIGHTS.length).zip CAST_POSITION_WEIGHTS).map
        Prod.snd).sum =
        ∑ i ∈ Finset.range (min b.length CAST_POSITION_WEIGHTS.length),
          CAST_POSITION_WEIGHTS.getD i 0 := by
      rw [zip_map_snd_sum, hidx]
    have hsc : (((b.take CAST_POSITION_WEIGHTS.length).zip CAST_POSITION_WEIGHTS).filterMap
        (fun p => if p.1 ∈ c then some p.2 else none)).sum =
        ∑ i ∈ Finset.range (min b.length CAST_POSITION_WEIGHTS.length),
          (if b.getD i 0 ∈ c then CAST_POSITION_WEIGHTS.getD i 0 else 0) := by
      rw [zip_filterMap_sum, hidx]
      apply Finset.sum_congr rfl
      intro i hi
      rw [Finset.mem_range] at hi
      rw [take_getD b CAST_POSITION_WEIGHTS.length i (lt_of_lt_of_le hi (min_le_right _ _))]
    rw [hms, hsc, if_neg (ne_of_gt (castDen_pos b h.1))]

lemma weightedCastOverlap_mem (b c : List ℤ) :
    0 ≤ weightedCastOverlap b c ∧ weightedCastOverlap b c ≤ 1 := by
  rw [weightedCastOverlap_eq_spec]
  by_cases h : b = [] ∨ c = []
  · simp [castOverlapSpec, h]
  · simp only [castOverlapSpec, if_neg h]
    push_neg at h
    have hden := castDen_pos b h.1
    constructor
    · exact div_nonneg (castNum_nonneg b c) hden.le
    · rw [div_le_one hden]
      exact castNum_le_den b c

/-- C7: the cast sub-score equals the spec's position-weighted overlap
formula, vanishes when either cast list is empty, and lies in `[0, 1]`. -/
theorem C7_cast_subscore (baseCast candidateCast : List ℤ) :
    weightedCastOverlap baseCast candidateCast = castOverlapSpec baseCast candidateCast ∧
    (baseCast = [] ∨ candidateCast = [] → weightedCastOverlap baseCast candidateCast = 0) ∧
    0 ≤ weightedCastOverlap baseCast candidateCast ∧
    weightedCastOverlap baseCast candidateCast ≤ 1 :=
  ⟨weightedCastOverlap_eq_spec baseCast candidateCast,
    fun h => by simp only [weightedCastOverlap, if_pos h],
    (weightedCastOverlap_mem baseCast candidateCast).1,
    (weightedCastOverlap_mem baseCast candidateCast).2⟩

/-- Witness for C7: empty reference cast gives score 0. -/
theorem C7_cast_subscore_witness :
    weightedCastOverlap [] [3] = castOverlapSpec [] [3] ∧
    weightedCastOverlap [] [3] = 0 :=
  ⟨(C7_cast_subscore [] [3]).1, (C7_cast_subscore [] [3]).2.1 (Or.inl rfl)⟩

/-! Identical-pair analysis. -/

lemma le_clamp_left (v lo hi : ℝ) : lo ≤ clamp v lo hi := le_max_left lo _

lemma jaccardScore_self (l : List ℤ) (h : l ≠ []) : jaccardScore l l = 1 := by
  simp only [jaccardScore, if_neg (by simp [h] : ¬(l = [] ∨ l = []))]
  rw [Finset.inter_self, Finset.union_self]
  have hcard : l.toFinset.card ≠ 0 := by
    simp [Finset.card_eq_zero, List.toFinset_eq_empty_iff, h]
  rw [if_neg hcard, div_self (by exact_mod_cast hcard)]

lemma weightedCastOverlap_self (l : List ℤ) (h : l ≠ []) : weightedCastOverlap l l = 1 := by
  rw [weightedCastOverlap_eq_spec]
  simp only [castOverlapSpec, if_neg (by simp [h] : ¬(l = [] ∨ l = []))]
  have hnum : (∑ i ∈ Finset.range (min l.length CAST_POSITION_WEIGHTS.length),
      (if l.getD i 0 ∈ l then CAST_POSITION_WEIGHTS.getD i 0 else 0)) =
      ∑ i ∈ Finset.range (min l.length CAST_POSITION_WEIGHTS.length),
        CAST_POSITION_WEIGHTS.getD i 0 := by
    apply Finset.sum_congr rfl
    intro i hi
    rw [Finset.mem_range] at hi
    have hil : i < l.length := lt_of_lt_of_le hi (min_le_left _ _)
    have hmem : l.getD i 0 ∈ l := by
      rw [List.getD_eq_getElem l 0 hil]
      exact List.getElem_mem hil
    rw [if_pos hmem]
  rw [hnum, div_self (ne_of_gt (castDen_pos l h))]

lemma detailed_self (f : ScoreFeatures) (d : ℤ) (hdir : f.directorId = some d)
    (hg : f.genreIds ≠ []) (hk : f.keywordIds ≠ []) (hc : f.castIds ≠ []) :
    ∃ r, scoreCandidateDetailed f f = some r ∧ 85 ≤ r.score ∧
      ∃ t, r.reason = "Same director" ++ t := by
  have hsd : (scoreSignals f f).sameDirector = true := by
    rw [signals_sameDirector, hdir]
    simp [sameDirectorB]
  have hg1 : (scoreSignals f f).genreScore = 1 := by
    rw [signals_genre]; exact jaccardScore_self _ hg
  have hk1 : (scoreSignals f f).keywordScore = 1 := by
    rw [signals_keyword]; exact jaccardScore_self _ hk
  have hc1 : (scoreSignals f f).castScore = 1 := by
    rw [signals_cast]; exact weightedCastOverlap_self _ hc
  have hyd : (scoreSignals f f).yearDiff = none ∨ (scoreSignals f f).yearDiff = some 0 := by
    rcases hry : f.releaseYear with - | y
    · left; simp [scoreSignals, hry]
    · right; simp [scoreSignals, hry]
  have hy : 0.45 ≤ (scoreSignals f f).yearScore := by
    rcases hry : f.releaseYear with - | y
    · simp [scoreSignals, hry]
    · simp [scoreSignals, hry, clamp]
      norm_num
  have hrt : 0.55 ≤ (scoreSignals f f).runtimeScore := by
    rcases hrm : f.runtimeMinutes with - | m
    · simp [scoreSignals, hrm]
    · simp [scoreSignals, hrm, clamp]
      norm_num
  have hra : (scoreSignals f f).ratingScore = 1 := by
    simp [scoreSignals, clamp]
  have hcf : 0 ≤ (scoreSignals f f).confidenceScore := by
    simp only [scoreSignals]
    exact le_clamp_left _ 0 1
  have hraw : 0.959 ≤ rawScoreOf (scoreSignals f f) := by
    simp only [rawScoreOf]
    have hb1 : (if (scoreSignals f f).sameDirector ∧ (scoreSignals f f).genreScore ≥ 0.2
        then (0.04 : ℝ) else 0) = 0.04 :=
      if_pos ⟨by simp [hsd], by rw [hg1]; norm_num⟩
    have hb2 : (if (scoreSignals f f).keywordScore ≥ 0.35 then (0.03 : ℝ) else 0) = 0.03 :=
      if_pos (by rw [hk1]; norm_num)
    have hp1 : (if ¬(scoreSignals f f).sameDirector ∧ (scoreSignals f f).genreScore = 0
        then (0.1 : ℝ) else 0) = 0 :=
      if_neg (by simp [hsd])
    have hp2 : (match (scoreSignals f f).yearDiff with
        | some dd => if dd > 25 then (0.04 : ℝ) else 0
        | none => (0 : ℝ)) = 0 := by
      rcases hyd with h | h <;> rw [h] <;> norm_num
    have hdt : (if (scoreSignals f f).sameDirector then (1 : ℝ) else 0) = 1 := by
      simp [hsd]
    rw [hb1, hb2, hp1, hp2, hdt]
    have hE : 0.959 ≤
        (scoreSignals f f).genreScore * SIGNAL_WEIGHTS.genre +
        (scoreSignals f f).keywordScore * SIGNAL_WEIGHTS.keyword +
        (scoreSignals f f).castScore * SIGNAL_WEIGHTS.cast +
        1 * SIGNAL_WEIGHTS.director +
        (scoreSignals f f).yearScore * SIGNAL_WEIGHTS.year +
        (scoreSignals f f).runtimeScore * SIGNAL_WEIGHTS.runtime +
        (scoreSignals f f).ratingScore * SIGNAL_WEIGHTS.rating +
        (scoreSignals f f).confidenceScore * SIGNAL_WEIGHTS.confidence + 0.04 + 0.03 - 0 - 0 := by
      rw [hg1, hk1, hc1, hra]
      simp only [SIGNAL_WEIGHTS]
      linarith
    refine le_trans ?_ (le_max_right 0 _)
    exact le_min (by norm_num) hE
  have h85 : 85 ≤ calibrateToMatchScore (rawScoreOf (scoreSignals f f)) :=
    calibrate_ge_85 hraw
  have hreason : ∃ t, buildReason (scoreSignals f f) = "Same director" ++ t := by
    simp only [buildReason]
    rw [if_pos hsd]
    rcases hfind : (sortReasons (candidateReasons (scoreSignals f f))).find?
        (fun r => r.label != "Same director") with - | sec
    · refine ⟨"", ?_⟩
      rw [hfind, String.append_empty]
    · refine ⟨" + " ++ sec.label, ?_⟩
      rw [hfind, ← String.append_assoc]
      have hlit : ("Same director + " : String) = "Same director" ++ " + " := by decide
      rw [hlit]
  obtain ⟨t, ht⟩ := hreason
  refine ⟨{ score := calibrateToMatchScore (rawScoreOf (scoreSignals f f)),
            rawScore := rawScoreOf (scoreSignals f f),
            reason := buildReason (scoreSignals f f),
            sameDirector := (scoreSignals f f).sameDirector }, ?_, h85, t, ht⟩
  simp only [scoreCandidateDetailed]
  rw [if_neg (by simp [hsd]), if_neg (by simp [hsd]),
    if_neg (by push_neg; linarith : ¬rawScoreOf (scoreSignals f f) < 0.34),
    if_neg (by rw [if_pos hsd]; push_neg; simp only [MIN_SCORE_SAME_DIRECTOR]; linarith)]

/-- C4: a candidate whose feature record is identical to the reference's,
with a non-null director and non-empty genre, keyword and cast lists, is
accepted with score at least 85 and a reason containing "Same director". -/
theorem C4_identical_high_score (f : ScoreFeatures) (d : ℤ)
    (hdir : f.directorId = some d) (hg : f.genreIds ≠ [])
    (hk : f.keywordIds ≠ []) (hc : f.castIds ≠ []) :
    ∃ r, scoreCandidate f f = some r ∧ 85 ≤ r.score ∧
      ∃ pre post, r.reason = pre ++ "Same director" ++ post := by
  obtain ⟨rd, hdet, h85, t, ht⟩ := detailed_self f d hdir hg hk hc
  refine ⟨{ score := rd.score, reason := rd.reason }, ?_, h85, "", t, ?_⟩
  · simp [scoreCandidate, hdet]
  · simpa using ht

/-- Witness for C4 at the repository test's reference record. -/
theorem C4_identical_high_score_witness :
    sampleFeatures.directorId = some 99 ∧
    sampleFeatures.genreIds ≠ [] ∧
    sampleFeatures.keywordIds ≠ [] ∧
    sampleFeatures.castIds ≠ [] ∧
    ∃ r, scoreCandidate sampleFeatures sampleFeatures = some r ∧ 85 ≤ r.score ∧
      ∃ pre post, r.reason = pre ++ "Same director" ++ post :=
  ⟨rfl, by simp [sampleFeatures], by simp [sampleFeatures], by simp [sampleFeatures],
    C4_identical_high_score sampleFeatures 99 rfl (by simp [sampleFeatures])
      (by simp [sampleFeatures]) (by simp [sampleFeatures])⟩

/-! Reason builder analysis. -/

lemma insertReason_perm (x : ReasonEntry) (l : List ReasonEntry) :
    (insertReason x l).Perm (x :: l) := by
  induction l with
  | nil => exact List.Perm.refl _
  | cons y ys ih =>
    simp only [insertReason]
    split_ifs with h
    · exact (List.Perm.cons y ih).trans (List.Perm.swap x y ys)
    · exact List.Perm.refl _

lemma sortReasons_perm (l : List ReasonEntry) : (sortReasons l).Perm l := by
  induction l with
  | nil => exact List.Perm.refl _
  | cons x xs ih =>
    exact (insertReason_perm x (sortReasons xs)).trans (List.Perm.cons x ih)

lemma insertReason_sorted (x : ReasonEntry) (l : List ReasonEntry)
    (h : l.Pairwise (fun a b => b.contribution ≤ a.contribution)) :
    (insertReason x l).Pairwise (fun a b => b.contribution ≤ a.contribution) := by
  induction l with
  | nil => simp [insertReason]
  | cons y ys ih =>
    rw [List.pairwise_cons] at h
    obtain ⟨hy, hys⟩ := h
    simp only [insertReason]
    split_ifs with hxy
    · rw [List.pairwise_cons]
      refine ⟨?_, ih hys⟩
      intro z hz
      have hz' : z ∈ x :: ys := (insertReason_perm x ys).mem_iff.mp hz
      rcases List.mem_cons.mp hz' with hzx | hzys
      · rw [hzx]; exact le_of_lt hxy
      · exact hy z hzys
    · rw [List.pairwise_cons]
      refine ⟨?_, List.pairwise_cons.mpr ⟨hy, hys⟩⟩
      intro z hz
      rcases List.mem_cons.mp hz with hzy | hzys
      · rw [hzy]; exact not_lt.mp hxy
      · exact le_trans (hy z hzys) (not_lt.mp hxy)

lemma sortReasons_sorted (l : List ReasonEntry) :
    (sortReasons l).Pairwise (fun a b => b.contribution ≤ a.contribution) := by
  induction l with
  | nil => simp [sortReasons]
  | cons x xs ih => exact insertReason_sorted x (sortReasons xs) ih

lemma find?_max_of_sorted (l : List ReasonEntry) (a : ReasonEntry)
    (hsort : l.Pairwise (fun a b => b.contribution ≤ a.contribution))
    (hfind : l.find? (fun r => r.label != "Same director") = some a) :
    a ∈ l ∧ a.label ≠ "Same director" ∧
      ∀ x ∈ l, x.label ≠ "Same director" → x.contribution ≤ a.contribution := by
  induction l with
  | nil => cases hfind
  | cons y ys ih =>
    rw [List.pairwise_cons] at hsort
    obtain ⟨hy, hys⟩ := hsort
    by_cases hpy : (y.label != "Same director") = true
    · simp only [List.find?_cons, hpy] at hfind
      simp only [Option.some.injEq] at hfind
      subst hfind
      refine ⟨List.mem_cons_self _ _, by simpa using hpy, ?_⟩
      intro x hx _
      rcases List.mem_cons.mp hx with hxy | hxys
      · rw [hxy]
      · exact hy x hxys
    · have hpy' : (y.label != "Same director") = false := by
        simpa using hpy
      simp only [List.find?_cons, hpy'] at hfind
      obtain ⟨hmem, hne, hmax⟩ := ih hys hfind
      refine ⟨List.mem_cons_of_mem _ hmem, hne, ?_⟩
      intro x hx hxne
      rcases List.mem_cons.mp hx with hxy | hxys
      · exfalso
        apply hxne
        rw [hxy] at hxne ⊢
        simpa using hpy
      · exact hmax x hxys hxne

lemma emptySignals :
    scoreSignals emptyFeatures emptyFeatures =
      { genreScore := 0, keywordScore := 0, castScore := 0, yearScore := 0.45,
        runtimeScore := 0.55, ratingScore := 1, confidenceScore := 0,
        sameDirector := false, yearDiff := none, runtimeDiff := none } := by
  simp [scoreSignals, emptyFeatures, jaccardScore, weightedCastOverlap, clamp,
    sameDirectorB, Real.logb_one]

/-- C8: for a same-director pair the reason is "Same director" alone when
no other reason qualifies, and otherwise "Same director + " followed by a
maximal-contribution qualifying non-director label; for a
different-director pair the reason joins the labels of the first two
entries of a contribution-descending permutation of the qualifying
reasons with " + ", falling back to the literal
"Strong overall profile match" when none qualifies. -/
theorem C8_reason_shape (signals : ScoringSignals) :
    (signals.sameDirector = true →
      ((∀ r ∈ candidateReasons signals, r.label = "Same director") ∧
          buildReason signals = "Same director") ∨
      (∃ a, a ∈ candidateReasons signals ∧ a.label ≠ "Same director" ∧
          (∀ x ∈ candidateReasons signals, x.label ≠ "Same director" →
            x.contribution ≤ a.contribution) ∧
          buildReason signals = "Same director + " ++ a.label)) ∧
    (signals.sameDirector = false → candidateReasons signals = [] →
      buildReason signals = "Strong overall profile match") ∧
    (signals.sameDirector = false → candidateReasons signals ≠ [] →
      ∃ sorted : List ReasonEntry,
        sorted.Pairwise (fun a b => b.contribution ≤ a.contribution) ∧
        sorted.Perm (candidateReasons signals) ∧
        buildReason signals =
          String.intercalate " + " ((sorted.take 2).map (fun r => r.label))) := by
  refine ⟨fun hsd => ?_, fun hsd hnil => ?_, fun hsd hnil => ?_⟩
  · rcases hfind : (sortReasons (candidateReasons signals)).find?
        (fun r => r.label != "Same director") with - | a
    · left
      constructor
      · intro r hr
        have hr' : r ∈ sortReasons (candidateReasons signals) :=
          (sortReasons_perm _).mem_iff.mpr hr
        have hnp := List.find?_eq_none.mp hfind r hr'
        simpa using hnp
      · simp only [buildReason]
        rw [if_pos hsd, hfind]
    · right
      obtain ⟨hmem, hne, hmax⟩ :=
        find?_max_of_sorted _ a (sortReasons_sorted _) hfind
      refine ⟨a, (sortReasons_perm _).mem_iff.mp hmem, hne, ?_, ?_⟩
      · intro x hx hxne
        exact hmax x ((sortReasons_perm _).mem_iff.mpr hx) hxne
      · simp only [buildReason]
        rw [if_pos hsd, hfind]
  · simp only [buildReason]
    rw [if_neg (by simp [hsd]), if_pos (by rw [hnil]; rfl)]
  · refine ⟨sortReasons (candidateReasons signals), sortReasons_sorted _,
      sortReasons_perm _, ?_⟩
    have hne : sortReasons (candidateReasons signals) ≠ [] := by
      intro hcon
      apply hnil
      have hlen := (sortReasons_perm (candidateReasons signals)).length_eq
      rw [hcon] at hlen
      exact List.length_eq_zero.mp hlen.symm
    simp only [buildReason]
    rw [if_neg (by simp [hsd]), if_neg hne]

/-- Witness for C8: the all-empty pair has a different-director signal
set with no qualifying reasons and falls back to the literal string. -/
theorem C8_reason_shape_witness :
    (scoreSignals emptyFeatures emptyFeatures).sameDirector = false ∧
    candidateReasons (scoreSignals emptyFeatures emptyFeatures) = [] ∧
    buildReason (scoreSignals emptyFeatures emptyFeatures) =
      "Strong overall profile match" := by
  have hsd : (scoreSignals emptyFeatures emptyFeatures).sameDirector = false := rfl
  have hcr : candidateReasons (scoreSignals emptyFeatures emptyFeatures) = [] := by
    rw [emptySignals]
    norm_num [candidateReasons]
  exact ⟨hsd, hcr, (C8_reason_shape _).2.1 hsd hcr⟩

end Themeflick
